import Mathlib

/-!
Verification of the autorelease release-orchestration engine.

The TypeScript sources are shallowly embedded over `List Char`: JavaScript
strings become character lists, the regex operations used by the code are
modelled by explicit scanning functions with the exact first-match/lazy
semantics of the patterns that appear in the source, and the remote API is
modelled by explicit inputs (fetch results, chat-call outcomes) and outputs
(lists of remote writes).
-/

namespace Autorelease

/-- Characters of a JavaScript string, modelled as a list of `Char`. -/
abbrev Str := List Char

/-! ## JavaScript string primitives -/

/-- Whitespace as matched by JavaScript `\s` and trimmed by `trim` /
`parseInt` (restricted to the ASCII whitespace characters, which are the
only ones the embedded documents contain). -/
def isWS (c : Char) : Bool :=
  c = ' ' || c = '\t' || c = '\n' || c = '\r' || c = '\u000B' || c = '\u000C'

/-- ASCII lower-casing of a single character (`String.prototype.toLowerCase`
restricted to ASCII). -/
def asciiLower (c : Char) : Char :=
  if 'A' ≤ c ∧ c ≤ 'Z' then Char.ofNat (c.toNat + 32) else c

/-- ASCII upper-casing of a single character (`String.prototype.toUpperCase`
restricted to ASCII). -/
def asciiUpper (c : Char) : Char :=
  if 'a' ≤ c ∧ c ≤ 'z' then Char.ofNat (c.toNat - 32) else c

/-- JavaScript `String.prototype.trim`. -/
def jsTrim (s : Str) : Str :=
  ((s.dropWhile isWS).reverse.dropWhile isWS).reverse

/-- Decides whether `needle` is a prefix of `hay` (first argument is the
needle). -/
def startsWithL : Str → Str → Bool
  | [], _ => true
  | _ :: _, [] => false
  | a :: as, b :: bs => a == b && startsWithL as bs

/-- Case-insensitive (ASCII) variant of `startsWithL`, modelling matching of
a literal under a regex `i` flag (two ASCII characters match case
insensitively exactly when they agree after upper-casing). -/
def ciStartsWith : Str → Str → Bool
  | [], _ => true
  | _ :: _, [] => false
  | a :: as, b :: bs => asciiUpper a == asciiUpper b && ciStartsWith as bs

/-- Index of the first occurrence of `needle` in a string, JavaScript
`String.prototype.indexOf` (with `none` for `-1`). -/
def indexOfList (needle : Str) : Str → Option Nat
  | [] => if startsWithL needle [] then some 0 else none
  | c :: rest =>
    if startsWithL needle (c :: rest) then some 0
    else (indexOfList needle rest).map (· + 1)

/-- JavaScript `hay.includes(needle)`. -/
def jsIncludes (hay needle : Str) : Bool :=
  (indexOfList needle hay).isSome

/-- JavaScript `str.replace(pattern, replacement)` with a *string* pattern:
only the first occurrence is replaced; if the pattern does not occur the
string is returned unchanged.  (The `$`-escape sequences JavaScript expands
inside the replacement string are not modelled; no replacement string built
by the embedded code is intended to contain them.) -/
def jsReplaceFirst (hay pat repl : Str) : Str :=
  match indexOfList pat hay with
  | none => hay
  | some i => hay.take i ++ repl ++ hay.drop (i + pat.length)

/-! ## `src/utils/helpers.ts` — `calculateNewVersion` -/

/-- A JavaScript number restricted to the values `parseInt` produces here:
an integer or `NaN`. -/
inductive JSNum where
  | nan
  | int (n : Int)
deriving DecidableEq

/-- Value of a (non-empty) run of decimal digits. -/
def digitsVal (ds : Str) : Nat :=
  ds.foldl (fun acc c => 10 * acc + (c.toNat - '0'.toNat)) 0

/-- JavaScript `parseInt(s, 10)`: skip leading whitespace, read an optional
sign and then the leading run of decimal digits; `NaN` if that run is empty.
Any trailing characters are ignored. -/
def jsParseInt (s : Str) : JSNum :=
  let t := s.dropWhile isWS
  match t with
  | '-' :: rest =>
    let ds := rest.takeWhile Char.isDigit
    if ds.isEmpty then .nan else .int (-(digitsVal ds : Int))
  | '+' :: rest =>
    let ds := rest.takeWhile Char.isDigit
    if ds.isEmpty then .nan else .int (digitsVal ds)
  | _ =>
    let ds := t.takeWhile Char.isDigit
    if ds.isEmpty then .nan else .int (digitsVal ds)

/-- `n + 1` on JavaScript numbers (`NaN + 1 = NaN`). -/
def JSNum.addOne : JSNum → JSNum
  | .nan => .nan
  | .int n => .int (n + 1)

/-- String interpolation of a JavaScript number (`NaN` renders as `"NaN"`;
integers render as in Lean, which agrees with JavaScript). -/
def JSNum.render : JSNum → Str
  | .nan => "NaN".toList
  | .int n => (toString n).toList

/-- The `releaseType` parameter of `calculateNewVersion`
(`'major' | 'minor' | 'patch'`). -/
inductive ReleaseType where
  | major
  | minor
  | patch
deriving DecidableEq

/-- Models `versionParts[i] || '0'`: a missing component (`undefined`) and
the empty string are both falsy and default to `'0'`. -/
def getVersionPart (parts : List Str) (i : Nat) : Str :=
  let p := parts.getD i []
  if p.isEmpty then "0".toList else p

/-- `calculateNewVersion` from `src/utils/helpers.ts`: split the current
version on `'.'`, parse the three components (defaulting to `'0'`), and
rebuild the bumped version string per the `switch` on the release type. -/
def calculateNewVersion (currentVersion : Str) (releaseType : ReleaseType) : Str :=
  let versionParts := currentVersion.splitOn '.'
  let major := jsParseInt (getVersionPart versionParts 0)
  let minor := jsParseInt (getVersionPart versionParts 1)
  let patch := jsParseInt (getVersionPart versionParts 2)
  match releaseType with
  | .major => major.addOne.render ++ ".0.0".toList
  | .minor => major.render ++ ['.'] ++ minor.addOne.render ++ ".0".toList
  | .patch => major.render ++ ['.'] ++ minor.render ++ ['.'] ++ patch.addOne.render

/-! ## `src/handlers/prService.ts` — `addNewBulletsToBody`

The document-merge algorithm.  The two regexes the source uses are modelled
by explicit scans with the semantics of the patterns as written:

* `new RegExp('(## ' + section + '.*?)(\\n## |$)', 's')` matches at the
  first occurrence of the literal `## <section>`; the lazy `.*?` together
  with the alternation makes group 1 run from there up to (excluding) the
  first later occurrence of `"\n## "`, or to the end of the string.
* `/<!--.*?-->\n/` (no `s` flag) matches at the earliest start position of
  `"<!--"` from which a `"-->\n"` terminator is reachable without crossing a
  newline; only the length of the matched text is used by the source.
-/

/-- Length-so-far scan for the terminator of `/<!--.*?-->\n/`: the least `k`
such that `"-->\n"` starts at offset `k` and no newline occurs before it. -/
def commentEndLen : Str → Option Nat
  | [] => none
  | c :: rest =>
    if startsWithL ("-->\n".toList) (c :: rest) then some 0
    else if c = '\n' then none
    else (commentEndLen rest).map (· + 1)

/-- Length of the first match of `/<!--.*?-->\n/` in a string (`none` when
the regex does not match). -/
def commentMatchLen : Str → Option Nat
  | [] => none
  | c :: rest =>
    match (if startsWithL ("<!--".toList) (c :: rest) then commentEndLen (rest.drop 3) else none) with
    | some k => some (8 + k)
    | none => commentMatchLen rest

/-- The `insertPoint` computation of `addNewBulletsToBody`: if the section
content matches the comment regex, the first newline *at or after an offset
equal to the matched comment's length* (not its end position!), else the
first newline; `indexOf` returning `-1` makes the insert point `0`. -/
def insertPoint (sectionContent : Str) : Nat :=
  match commentMatchLen sectionContent with
  | some len =>
    match (indexOfList ("\n".toList) (sectionContent.drop len)).map (· + len) with
    | some i => i + 1
    | none => 0
  | none =>
    match indexOfList ("\n".toList) sectionContent with
    | some i => i + 1
    | none => 0

/-- Builds the updated section: the new bullets joined by newlines are
spliced in at the insert point (with a trailing newline when non-empty). -/
def insertBullets (sectionContent : Str) (bullets : List Str) : Str :=
  let p := insertPoint sectionContent
  sectionContent.take p
    ++ List.intercalate ("\n".toList) bullets
    ++ (if 0 < bullets.length then "\n".toList else [])
    ++ sectionContent.drop p

/-- Start position and length of group 1 of
`new RegExp('(## ' + section + '.*?)(\\n## |$)', 's')` where `hdr` is the
literal `"## " ++ section`: the match starts at the first occurrence of
`hdr` and group 1 extends to the first later `"\n## "` or to the end. -/
def sectionSpan (prBody hdr : Str) : Option (Nat × Nat) :=
  match indexOfList hdr prBody with
  | none => none
  | some i =>
    match indexOfList ("\n## ".toList) (prBody.drop (i + hdr.length)) with
    | some k => some (i, hdr.length + k)
    | none => some (i, prBody.length - i)

/-- One insertion block of `addNewBulletsToBody` (the feature block and the
bug block are textually identical up to the section name): when there are
bullets and the section regex matches, the old section text is replaced (as
a first-occurrence string replacement) by the section with the bullets
spliced in. -/
def addBulletsToSection (prBody sec : Str) (bullets : List Str) : Str :=
  if 0 < bullets.length then
    match sectionSpan prBody ("## ".toList ++ sec) with
    | some (i, len) =>
      let sectionContent := (prBody.drop i).take len
      jsReplaceFirst prBody sectionContent (insertBullets sectionContent bullets)
    | none => prBody
  else prBody

/-- `addNewBulletsToBody` from `src/handlers/prService.ts`: first append any
missing section header (with its placeholder comment), then splice the new
feature bullets into the features section and the new bug bullets into the
bugs section. -/
def addNewBulletsToBody (prBody featuresSection : Str) (featureBullets : List Str)
    (bugsSection : Str) (bugBullets : List Str) : Str :=
  let b1 :=
    if jsIncludes prBody ("## ".toList ++ featuresSection) then prBody
    else prBody ++ "\n\n## ".toList ++ featuresSection
      ++ "\n<!-- New feature summaries will be added here -->\n".toList
  let b2 :=
    if jsIncludes b1 ("## ".toList ++ bugsSection) then b1
    else b1 ++ "\n\n## ".toList ++ bugsSection
      ++ "\n<!-- Bug fixes and improvements will be added here -->\n".toList
  let b3 := addBulletsToSection b2 featuresSection featureBullets
  addBulletsToSection b3 bugsSection bugBullets

/-- The fixed features section name (`FEATURES_SECTION` in `PRService`). -/
def FEATURES_SECTION : Str := "New Features".toList

/-- The fixed bugs section name (`BUGS_SECTION` in `PRService`). -/
def BUGS_SECTION : Str := "Bugs / Improvements".toList

/-! ## `src/handlers/events.ts` — `ConfigService`: configuration model -/

/-- `RepoConfig.branches` (shape from `DEFAULT_CONFIG`; every field of the
configuration document is optional). -/
structure BranchesConfig where
  release : Option Str := none
  staging : Option Str := none
deriving DecidableEq

/-- `RepoConfig.pr`. -/
structure PrConfig where
  draftTitle : Option Str := none
  draftBody : Option Str := none
  featuresSection : Option Str := none
deriving DecidableEq

/-- `RepoConfig.release`.  The source field `prefix` is named `prefixVal`
here because `prefix` is a Lean keyword. -/
structure ReleaseConfig where
  prefixVal : Option Str := none
  createDraft : Option Bool := none
  prerelease : Option Bool := none
  generateReleaseNotes : Option Bool := none
deriving DecidableEq

/-- `RepoConfig.changelog`. -/
structure ChangelogConfig where
  file : Option Str := none
  headerFormat : Option Str := none
  entryFormat : Option Str := none
deriving DecidableEq

/-- `RepoConfig.releaseTags`. -/
structure ReleaseTagsConfig where
  major : Option Str := none
  minor : Option Str := none
  patch : Option Str := none
deriving DecidableEq

/-- `RepoConfig.ai.openai`.  JavaScript numbers are modelled as rationals
(the two numeric knobs are only ever compared for truthiness). -/
structure OpenAIConfig where
  model : Option Str := none
  temperature : Option ℚ := none
  max_tokens : Option ℚ := none
deriving DecidableEq

/-- `RepoConfig.ai`. -/
structure AiConfig where
  enabled : Option Bool := none
  openai : Option OpenAIConfig := none
  featureSummaryPrompt : Option Str := none
  versionTypePrompt : Option Str := none
deriving DecidableEq

/-- `RepoConfig` from `src/utils/types.ts` (shape as used by the code and
`DEFAULT_CONFIG`). -/
structure RepoConfig where
  branches : Option BranchesConfig := none
  pr : Option PrConfig := none
  release : Option ReleaseConfig := none
  changelog : Option ChangelogConfig := none
  releaseTags : Option ReleaseTagsConfig := none
  ai : Option AiConfig := none
deriving DecidableEq

/-- `ConfigService.DEFAULT_CONFIG`. -/
def DEFAULT_CONFIG : RepoConfig where
  branches := some { release := some ("main".toList), staging := some ("staging".toList) }
  pr := some
    { draftTitle := some ("{major}.{minor}.{patch} Release: {version}".toList)
      draftBody := some (("## Features to be released\n\n{features}\n\n---\n*This PR was automatically created by the Release Manager.*\n*Last updated: {timestamp}*").toList)
      featuresSection := some ("## Features to be released".toList) }
  release := some
    { prefixVal := some ("v".toList)
      createDraft := some false
      prerelease := some false
      generateReleaseNotes := some true }
  changelog := some
    { file := some ("CHANGELOG.md".toList)
      headerFormat := some ("# Changelog\n\n".toList)
      entryFormat := some ("## {version} ({date})\n\n{features}\n\n".toList) }
  releaseTags := some
    { major := some ("[MAJOR]".toList)
      minor := some ("[MINOR]".toList)
      patch := some ("[PATCH]".toList) }
  ai := some
    { enabled := some true
      openai := some
        { model := some ("gpt-4o-mini".toList)
          temperature := some (mkRat 2 10)
          max_tokens := some (2048 : ℚ) }
      featureSummaryPrompt := some (("You are a helpful assistant that generates concise summaries of feature changes in a GitHub repository. Focus on business value and benefits over technical details.").toList)
      versionTypePrompt := some (("You are a versioning expert who helps determine the appropriate semantic version increment type for code changes. Analyze the changes and recommend MAJOR for breaking changes, MINOR for new features, or PATCH for bug fixes").toList) }

/-- Deep merge of the `openai` group (a custom leaf overrides the default;
an absent custom leaf keeps the default — `mergeConfigs` recursion). -/
def mergeOpenAI (d c : OpenAIConfig) : OpenAIConfig where
  model := c.model <|> d.model
  temperature := c.temperature <|> d.temperature
  max_tokens := c.max_tokens <|> d.max_tokens

/-- Deep merge of the `branches` group. -/
def mergeBranches (d c : BranchesConfig) : BranchesConfig where
  release := c.release <|> d.release
  staging := c.staging <|> d.staging

/-- Deep merge of the `pr` group. -/
def mergePr (d c : PrConfig) : PrConfig where
  draftTitle := c.draftTitle <|> d.draftTitle
  draftBody := c.draftBody <|> d.draftBody
  featuresSection := c.featuresSection <|> d.featuresSection

/-- Deep merge of the `release` group. -/
def mergeRelease (d c : ReleaseConfig) : ReleaseConfig where
  prefixVal := c.prefixVal <|> d.prefixVal
  createDraft := c.createDraft <|> d.createDraft
  prerelease := c.prerelease <|> d.prerelease
  generateReleaseNotes := c.generateReleaseNotes <|> d.generateReleaseNotes

/-- Deep merge of the `changelog` group. -/
def mergeChangelog (d c : ChangelogConfig) : ChangelogConfig where
  file := c.file <|> d.file
  headerFormat := c.headerFormat <|> d.headerFormat
  entryFormat := c.entryFormat <|> d.entryFormat

/-- Deep merge of the `releaseTags` group. -/
def mergeReleaseTags (d c : ReleaseTagsConfig) : ReleaseTagsConfig where
  major := c.major <|> d.major
  minor := c.minor <|> d.minor
  patch := c.patch <|> d.patch

/-- Deep merge of the `ai` group (recursing into `openai`). -/
def mergeAi (d c : AiConfig) : AiConfig where
  enabled := c.enabled <|> d.enabled
  openai :=
    match c.openai with
    | none => d.openai
    | some co => some (mergeOpenAI (d.openai.getD {}) co)
  featureSummaryPrompt := c.featureSummaryPrompt <|> d.featureSummaryPrompt
  versionTypePrompt := c.versionTypePrompt <|> d.versionTypePrompt

/-- `ConfigService.mergeConfigs`: for each key of the custom configuration,
an object value is merged recursively with the default, a leaf value
overrides it, and an absent key keeps the default. -/
def mergeConfigs (defaultConfig customConfig : RepoConfig) : RepoConfig where
  branches :=
    match customConfig.branches with
    | none => defaultConfig.branches
    | some cb => some (mergeBranches (defaultConfig.branches.getD {}) cb)
  pr :=
    match customConfig.pr with
    | none => defaultConfig.pr
    | some cp => some (mergePr (defaultConfig.pr.getD {}) cp)
  release :=
    match customConfig.release with
    | none => defaultConfig.release
    | some cr => some (mergeRelease (defaultConfig.release.getD {}) cr)
  changelog :=
    match customConfig.changelog with
    | none => defaultConfig.changelog
    | some cc => some (mergeChangelog (defaultConfig.changelog.getD {}) cc)
  releaseTags :=
    match customConfig.releaseTags with
    | none => defaultConfig.releaseTags
    | some ct => some (mergeReleaseTags (defaultConfig.releaseTags.getD {}) ct)
  ai :=
    match customConfig.ai with
    | none => defaultConfig.ai
    | some ca => some (mergeAi (defaultConfig.ai.getD {}) ca)

/-! ## `src/handlers/events.ts` — `ConfigService.loadConfig` -/

/-- Outcome of the `repos.getContent` call for the configuration file:
a decoded file content, a response without a `content` field, or a thrown
API error carrying an optional HTTP status. -/
inductive GetContentResult where
  | fileContent (decoded : Str)
  | otherPayload
  | apiError (status : Option Nat)
deriving DecidableEq

/-- Errors `loadConfig` can propagate: a rethrown API error, the explicit
`'Invalid config file format'` error, or the `SyntaxError` thrown by
`JSON.parse` on malformed content (the latter two carry no HTTP status). -/
inductive ConfigError where
  | api (status : Option Nat)
  | invalidFormat
  | malformedJson
deriving DecidableEq

/-- The `error.status` read performed by the `catch` block. -/
def ConfigError.statusOf : ConfigError → Option Nat
  | .api st => st
  | .invalidFormat => none
  | .malformedJson => none

/-- The `try` block of `loadConfig`: fetch the file, parse its JSON and
merge it over the defaults; throw on a missing `content` field or malformed
JSON.  The platform JSON parser is passed in as `jsonParse` (`none` models a
`SyntaxError`). -/
def loadConfigTry (jsonParse : Str → Option RepoConfig) :
    GetContentResult → Except ConfigError RepoConfig
  | .apiError st => .error (.api st)
  | .otherPayload => .error .invalidFormat
  | .fileContent s =>
    match jsonParse s with
    | some repoConfig => .ok (mergeConfigs DEFAULT_CONFIG repoConfig)
    | none => .error .malformedJson

/-- `loadConfig`: the `catch` block turns a 404 (file absent) into the
defaults and rethrows every other error.  Note that the merged configuration
is *returned*, never assigned to the service's `config` field. -/
def loadConfig (jsonParse : Str → Option RepoConfig) (r : GetContentResult) :
    Except ConfigError RepoConfig :=
  match loadConfigTry jsonParse r with
  | .ok cfg => .ok cfg
  | .error e => if e.statusOf = some 404 then .ok DEFAULT_CONFIG else .error e

/-! ## `src/handlers/events.ts` — `ConfigService.callOpenAI` -/

/-- Outcome of the external `openai.chat.completions.create` call: the call
throws, or returns a message whose `content` may be absent. -/
inductive ChatOutcome where
  | failure
  | success (content : Option Str)
deriving DecidableEq

/-- Errors `callOpenAI` can throw: missing required configuration fields,
a failed external call, or the `'No response from OpenAI'` error. -/
inductive CallError where
  | missingFields
  | apiFailure
  | noResponse
deriving DecidableEq

/-- JavaScript falsiness of an optional string (`undefined`/`null` and the
empty string are falsy). -/
def optStrFalsy : Option Str → Bool
  | none => true
  | some s => s.isEmpty

/-- JavaScript falsiness of an optional number (`undefined` and `0` are
falsy). -/
def optRatFalsy : Option ℚ → Bool
  | none => true
  | some q => q = 0

/-- `callOpenAI`: returns `null` (here `ok none`) when the AI feature is not
enabled; throws when a required `openai` field is falsy, when the external
call fails, or when the response carries no content; otherwise returns the
content. -/
def callOpenAI (config : RepoConfig) (chat : ChatOutcome) : Except CallError (Option Str) :=
  let model := (config.ai.bind (·.openai)).bind (·.model)
  let temperature := (config.ai.bind (·.openai)).bind (·.temperature)
  let max_tokens := (config.ai.bind (·.openai)).bind (·.max_tokens)
  if ¬((config.ai.bind (·.enabled)).getD false) then .ok none
  else if optStrFalsy model || optRatFalsy temperature || optRatFalsy max_tokens then
    .error .missingFields
  else
    match chat with
    | .failure => .error .apiFailure
    | .success content =>
      if optStrFalsy content then .error .noResponse else .ok content

/-- Result of `handleFeatureMergedToStaging` as far as the draft document is
concerned: the update was skipped, or the draft was updated with a summary. -/
inductive FeatureOutcome where
  | skippedUpdate
  | updatedDraft (aiSummary : Str)
deriving DecidableEq

/-- The control flow of `handleFeatureMergedToStaging` around the
classification call: a thrown error propagates (the event fails); a falsy
summary logs a warning and returns without updating; otherwise the draft PR
is updated. -/
def handleFeatureMergedToStaging (config : RepoConfig) (chat : ChatOutcome) :
    Except CallError FeatureOutcome :=
  match callOpenAI config chat with
  | .error e => .error e
  | .ok aiSummary =>
    if optStrFalsy aiSummary then .ok .skippedUpdate
    else .ok (.updatedDraft (aiSummary.getD []))

/-! ## `src/handlers/prService.ts` — `findStagingToReleasePR` -/

/-- A pull request as returned by the list endpoint (the fields the locator
reads; the GitHub `draft` field is optional). -/
structure ListedPR where
  number : Nat
  draft : Option Bool
  title : Str
deriving DecidableEq

/-- `findStagingToReleasePR`: `prs` is the listing for the fully qualified
head reference, `simplePrs` the retry listing without the owner prefix.  In
either listing a PR with `draft === true` is preferred, else the first PR;
with both listings empty the result is `undefined`. -/
def findStagingToReleasePR (prs simplePrs : List ListedPR) : Option ListedPR :=
  if prs.length = 0 then
    match simplePrs with
    | [] => none
    | p :: rest => some (((p :: rest).find? (fun pr => pr.draft == some true)).getD p)
  else
    match prs.find? (fun pr => pr.draft == some true) with
    | some draftPR => some draftPR
    | none => prs.head?

/-! ## `src/handlers/prService.ts` — `updatePRTitle` and friends -/

/-- The `config.release?.prefix ?? 'v'` read used for every version string
written by the service. -/
def releasePrefixOf (config : RepoConfig) : Str :=
  (config.release.bind (·.prefixVal)).getD ("v".toList)

/-- The runtime effect of the `versionType.toLowerCase() as 'major' | ...`
cast: `calculateNewVersion`'s `switch` sends `'major'` and `'minor'` to
their cases and everything else to the `'patch'` default. -/
def releaseTypeOfString (s : Str) : ReleaseType :=
  if s = "major".toList then .major
  else if s = "minor".toList then .minor
  else .patch

/-- `updatePRTitleWithInfo`: computes the bumped version and writes the
title `"<versionType> Release: <prefix><newVersion>: <summary>"`. -/
def updatePRTitleWithInfo (config : RepoConfig) (currentVersion versionType summary : Str) : Str :=
  let newVersion := calculateNewVersion currentVersion (releaseTypeOfString (versionType.map asciiLower))
  versionType ++ " Release: ".toList ++ releasePrefixOf config ++ newVersion
    ++ ": ".toList ++ summary

/-- First-match scan of a regex modelled by a match-at-start function `f`:
the regex engine tries each start position from the left. -/
def scanMatch (f : Str → Option Str) : Str → Option Str
  | [] => f []
  | c :: rest =>
    match f (c :: rest) with
    | some r => some r
    | none => scanMatch f rest

/-- Match of `/VERSION_TYPE:\s*(MAJOR|MINOR|PATCH)/i` at the start of `s`,
returning the capture as it appears in the input.  (`\s*` can only match
greedily here: giving characters back would put a whitespace character where
a letter is required.) -/
def versionTypeMatchAt (s : Str) : Option Str :=
  if ciStartsWith ("VERSION_TYPE:".toList) s then
    let rest := (s.drop 13).dropWhile isWS
    if ciStartsWith ("MAJOR".toList) rest then some (rest.take 5)
    else if ciStartsWith ("MINOR".toList) rest then some (rest.take 5)
    else if ciStartsWith ("PATCH".toList) rest then some (rest.take 5)
    else none
  else none

/-- First match of `/VERSION_TYPE:\s*(MAJOR|MINOR|PATCH)/i` (the capture). -/
def jsVersionTypeMatch (s : Str) : Option Str :=
  scanMatch versionTypeMatchAt s

/-- Backtracking of the greedy `\s*` in `/SUMMARY:\s*(.+?)(?:\n|$)/i`: the
largest `k` not exceeding the whitespace-run length from which `.+?` can
start, i.e. whose character exists and is not a newline. -/
def backtrackPos (rest : Str) : Nat → Option Nat
  | 0 =>
    if 0 < rest.length ∧ rest.getD 0 ' ' ≠ '\n' then some 0 else none
  | k + 1 =>
    if k + 1 < rest.length ∧ rest.getD (k + 1) ' ' ≠ '\n' then some (k + 1)
    else backtrackPos rest k

/-- Match of `/SUMMARY:\s*(.+?)(?:\n|$)/i` at the start of `s`, returning
the capture: after the greedy-then-backtracked `\s*`, the lazy `.+?`
followed by `(?:\n|$)` takes everything up to the next newline or the end. -/
def summaryMatchAt (s : Str) : Option Str :=
  if ciStartsWith ("SUMMARY:".toList) s then
    let rest := s.drop 8
    match backtrackPos rest (rest.takeWhile isWS).length with
    | some p => some ((rest.drop p).takeWhile (fun c => c ≠ '\n'))
    | none => none
  else none

/-- First match of `/SUMMARY:\s*(.+?)(?:\n|$)/i` (the capture). -/
def jsSummaryMatch (s : Str) : Option Str :=
  scanMatch summaryMatchAt s

/-- `updatePRTitle`: with a falsy classification response the defaults
`('PATCH', 'New features and improvements')` are used; otherwise the two
regexes extract the version type (upper-cased) and the summary (trimmed,
then truncated to 57 characters plus `'...'` when longer than 60), each with
its own default.  Returns the title written to the PR. -/
def updatePRTitle (config : RepoConfig) (currentVersion : Str) (response : Option Str) : Str :=
  if optStrFalsy response then
    updatePRTitleWithInfo config currentVersion ("PATCH".toList)
      ("New features and improvements".toList)
  else
    let r := response.getD []
    let versionType :=
      match jsVersionTypeMatch r with
      | some w => w.map asciiUpper
      | none => "PATCH".toList
    let summary :=
      match jsSummaryMatch r with
      | some g => jsTrim g
      | none => "New features and improvements".toList
    let oneLine := if 60 < summary.length then summary.take 57 ++ "...".toList else summary
    updatePRTitleWithInfo config currentVersion versionType oneLine

/-- The title `updateStagingToReleasePR` passes to `pulls.create` when no
draft PR exists yet: `` `Updating ${prefix}${currentVersion}` ``. -/
def draftCreationTitle (config : RepoConfig) (currentVersion : Str) : Str :=
  "Updating ".toList ++ releasePrefixOf config ++ currentVersion

/-- All titles `updateStagingToReleasePR` writes onto the aggregation draft
during one feature-merge event: the creation title when no draft was found,
followed by the title computed by `updatePRTitle`. -/
def titlesWritten (config : RepoConfig) (currentVersion : Str) (draftFound : Bool)
    (response : Option Str) : List Str :=
  (if draftFound then [] else [draftCreationTitle config currentVersion])
    ++ [updatePRTitle config currentVersion response]

/-! ## `src/handlers/prService.ts` — `handleStagingMergedToRelease` -/

/-- `versionFromTitle.replace(/^v?/, '')`: strips one leading lowercase `v`
if present (the inner regex has no `i` flag). -/
def stripLeadingV : Str → Str
  | 'v' :: rest => rest
  | s => s

/-- The leading run of decimal digits (`\d+`, greedy). -/
def takeDigits (s : Str) : Str := s.takeWhile Char.isDigit

/-- The title match `/^(MAJOR|MINOR|PATCH) Release: (v?\d+\.\d+\.\d+):/i`:
returns the two captures (the bump word and the version, both as written in
the title) or `none` when the title does not match. -/
def parseReleaseTitle (title : Str) : Option (Str × Str) :=
  let bump :=
    if ciStartsWith ("MAJOR".toList) title then some (title.take 5)
    else if ciStartsWith ("MINOR".toList) title then some (title.take 5)
    else if ciStartsWith ("PATCH".toList) title then some (title.take 5)
    else none
  match bump with
  | none => none
  | some word =>
    let rest := title.drop 5
    if ciStartsWith (" Release: ".toList) rest then
      let rest2 := rest.drop 10
      let vpart : Str × Str :=
        match rest2 with
        | c :: t => if asciiUpper c = 'V' then ([c], t) else ([], rest2)
        | [] => ([], rest2)
      let d1 := takeDigits vpart.2
      let r1 := vpart.2.drop d1.length
      if d1 ≠ [] ∧ startsWithL (".".toList) r1 then
        let d2 := takeDigits (r1.drop 1)
        let r2 := (r1.drop 1).drop d2.length
        if d2 ≠ [] ∧ startsWithL (".".toList) r2 then
          let d3 := takeDigits (r2.drop 1)
          let r3 := (r2.drop 1).drop d3.length
          if d3 ≠ [] ∧ startsWithL (":".toList) r3 then
            some (word, vpart.1 ++ d1 ++ ['.'] ++ d2 ++ ['.'] ++ d3)
          else none
        else none
      else none
    else none

/-- The merge-event payload fields the handlers read. -/
structure MergeEvent where
  number : Nat
  merged : Bool
  headRef : Str
  baseRef : Str
  title : Str
  body : Str
deriving DecidableEq

/-- A remote write performed by `handleStagingMergedToRelease` (the release
notes body, which depends on an external summarization call, is not part of
the properties verified here). -/
inductive RemoteWrite where
  | createRelease (tagName name targetCommitish : Str)
  | createComment (body : Str)
deriving DecidableEq

/-- `handleStagingMergedToRelease`: skip unless a merged PR from the staging
branch to the release branch; parse the title and skip (writing nothing)
when it does not match; otherwise create the release and post the completion
comment.  `releaseUrl` stands for the `html_url` the platform assigns to the
created release. -/
def handleStagingMergedToRelease (config : RepoConfig) (pr : MergeEvent) (releaseUrl : Str) :
    List RemoteWrite :=
  if ¬pr.merged then []
  else
    let stagingBranch := (config.branches.bind (·.staging)).getD ("staging".toList)
    let releaseBranch := (config.branches.bind (·.release)).getD ("main".toList)
    if pr.headRef ≠ stagingBranch ∨ pr.baseRef ≠ releaseBranch then []
    else
      match parseReleaseTitle pr.title with
      | none => []
      | some parsed =>
        let version := releasePrefixOf config ++ stripLeadingV parsed.2
        [RemoteWrite.createRelease version version releaseBranch,
         RemoteWrite.createComment (("🎉 Release [".toList) ++ version ++ ("](".toList)
           ++ releaseUrl ++ (") has been published!".toList))]

/-! ## `src/events.ts` — `probotHandler` and the service state -/

/-- The mutable state of a `PRService` instance relevant to configuration:
the `config` field, initialized to `DEFAULT_CONFIG` by `ConfigService`. -/
structure ServiceState where
  config : RepoConfig
deriving DecidableEq

/-- `new PRService(context)`: the field initializer sets `config` to the
defaults. -/
def newPRService : ServiceState := { config := DEFAULT_CONFIG }

/-- The `await prService.loadConfig()` call as it affects the service state:
`loadConfig` returns the merged configuration but assigns nothing, so the
state comes back unchanged. -/
def loadConfigCall (s : ServiceState) (jsonParse : Str → Option RepoConfig)
    (r : GetContentResult) : Except ConfigError RepoConfig × ServiceState :=
  (loadConfig jsonParse r, s)

/-- Which pipeline stage the handler dispatches to. -/
inductive Dispatch where
  | featureToStaging
  | stagingToRelease
  | ignore
deriving DecidableEq

/-- The two branch-pair tests of `probotHandler` (reading
`prService.config.branches`). -/
def dispatchOf (config : RepoConfig) (ev : MergeEvent) : Dispatch :=
  let staging := config.branches.bind (·.staging)
  let release := config.branches.bind (·.release)
  if some ev.baseRef = staging ∧ ¬(some ev.headRef = release) then .featureToStaging
  else if some ev.baseRef = release ∧ some ev.headRef = staging then .stagingToRelease
  else .ignore

/-- `probotHandler`'s `pull_request.closed` flow: ignore unmerged PRs,
construct the service, call `loadConfig` *discarding its result*, then
dispatch on the branch pair.  Returns the dispatch decision together with
the configuration every subsequent operation reads (`none` when the event
fails because `loadConfig` threw). -/
def probotHandler (jsonParse : Str → Option RepoConfig) (r : GetContentResult)
    (ev : MergeEvent) : Option (Dispatch × RepoConfig) :=
  if ¬ev.merged then none
  else
    let prService := newPRService
    let (res, prService) := loadConfigCall prService jsonParse r
    match res with
    | .error _ => none
    | .ok _ => some (dispatchOf prService.config ev, prService.config)

/-! ## Basic properties of the string primitives -/

theorem startsWithL_iff (n : Str) : ∀ h : Str, startsWithL n h = true ↔ ∃ t, n ++ t = h := by
  induction n with
  | nil => intro h; simp [startsWithL]
  | cons a as ih =>
    intro h
    cases h with
    | nil => simp [startsWithL]
    | cons b bs =>
      simp only [startsWithL, Bool.and_eq_true, beq_iff_eq]
      constructor
      · rintro ⟨rfl, hs⟩
        obtain ⟨t, ht⟩ := (ih bs).mp hs
        exact ⟨t, by simp [ht]⟩
      · rintro ⟨t, ht⟩
        injection ht with h1 h2
        subst h1
        exact ⟨rfl, (ih bs).mpr ⟨t, h2⟩⟩

theorem indexOfList_some_sw (n : Str) :
    ∀ (h : Str) (i : Nat), indexOfList n h = some i → startsWithL n (h.drop i) = true := by
  intro h
  induction h with
  | nil =>
    intro i hi
    simp only [indexOfList] at hi
    split at hi
    · next hsw => cases hi; simpa using hsw
    · next hsw => cases hi
  | cons c rest ih =>
    intro i hi
    simp only [indexOfList] at hi
    split at hi
    · next hsw => cases hi; simpa using hsw
    · next hsw =>
      rcases Option.map_eq_some'.mp hi with ⟨j, hj, hadd⟩
      subst hadd
      simpa [List.drop_succ_cons] using ih j hj

theorem indexOfList_some_min (n : Str) :
    ∀ (h : Str) (i : Nat), indexOfList n h = some i →
      ∀ j, j < i → startsWithL n (h.drop j) = false := by
  intro h
  induction h with
  | nil =>
    intro i hi j hj
    simp only [indexOfList] at hi
    split at hi
    · cases hi; omega
    · cases hi
  | cons c rest ih =>
    intro i hi j hj
    simp only [indexOfList] at hi
    split at hi
    · next hsw => cases hi; omega
    · next hsw =>
      rcases Option.map_eq_some'.mp hi with ⟨k, hk, hadd⟩
      subst hadd
      cases j with
      | zero => simpa using hsw
      | succ j' =>
        have := ih k hk j' (by omega)
        simpa [List.drop_succ_cons] using this

theorem indexOfList_eq_some (n : Str) :
    ∀ (h : Str) (i : Nat), startsWithL n (h.drop i) = true →
      (∀ j, j < i → startsWithL n (h.drop j) = false) → indexOfList n h = some i := by
  intro h
  induction h with
  | nil =>
    intro i hsw hmin
    simp only [List.drop_nil] at hsw
    rcases Nat.eq_zero_or_pos i with rfl | hpos
    · simp only [indexOfList, hsw, if_true]
    · have h0 := hmin 0 hpos
      simp only [List.drop_nil] at h0
      simp [hsw] at h0
  | cons c rest ih =>
    intro i hsw hmin
    cases i with
    | zero =>
      simp only [List.drop_zero] at hsw
      simp only [indexOfList, hsw, if_true]
    | succ i' =>
      have h0 := hmin 0 (Nat.succ_pos i')
      simp only [List.drop_zero] at h0
      simp only [indexOfList]
      rw [if_neg (by simp [h0])]
      have hi' : indexOfList n rest = some i' := by
        apply ih
        · simpa [List.drop_succ_cons] using hsw
        · intro j hj
          have := hmin (j + 1) (by omega)
          simpa [List.drop_succ_cons] using this
      rw [hi']
      rfl

theorem indexOfList_le_length (n : Str) :
    ∀ (h : Str) (i : Nat), indexOfList n h = some i → i ≤ h.length := by
  intro h
  induction h with
  | nil =>
    intro i hi
    simp only [indexOfList] at hi
    split at hi
    · cases hi; simp
    · cases hi
  | cons c rest ih =>
    intro i hi
    simp only [indexOfList] at hi
    split at hi
    · cases hi; simp
    · next hsw =>
      rcases Option.map_eq_some'.mp hi with ⟨k, hk, hadd⟩
      subst hadd
      have := ih k hk
      simp only [List.length_cons]
      omega

theorem startsWithL_take (l : Str) (n : Nat) : startsWithL (l.take n) l = true :=
  (startsWithL_iff _ _).mpr ⟨l.drop n, List.take_append_drop n l⟩

theorem startsWithL_length_le {n h : Str} (hs : startsWithL n h = true) :
    n.length ≤ h.length := by
  obtain ⟨t, rfl⟩ := (startsWithL_iff _ _).mp hs
  simp

theorem startsWithL_trans {a b c : Str} (h1 : startsWithL a b = true)
    (h2 : startsWithL b c = true) : startsWithL a c = true := by
  obtain ⟨t, rfl⟩ := (startsWithL_iff _ _).mp h1
  obtain ⟨u, rfl⟩ := (startsWithL_iff _ _).mp h2
  exact (startsWithL_iff _ _).mpr ⟨t ++ u, by simp⟩

theorem startsWithL_take_of_le {n l : Str} {m : Nat} (hs : startsWithL n l = true)
    (hm : n.length ≤ m) : startsWithL n (l.take m) = true := by
  obtain ⟨t, rfl⟩ := (startsWithL_iff _ _).mp hs
  refine (startsWithL_iff _ _).mpr ⟨t.take (m - n.length), ?_⟩
  rw [List.take_append_eq_append_take, List.take_of_length_le hm]

/-! ## Frame lemmas for the section-merge algorithm -/

theorem sectionSpan_facts {prBody hdr : Str} {i len : Nat}
    (h : sectionSpan prBody hdr = some (i, len)) :
    indexOfList hdr prBody = some i ∧ hdr.length ≤ len ∧ i + len ≤ prBody.length := by
  unfold sectionSpan at h
  split at h
  · exact Option.noConfusion h
  · next i0 hidx =>
    have hsw := indexOfList_some_sw hdr prBody i0 hidx
    have hi0le := indexOfList_le_length hdr prBody i0 hidx
    have hlen := startsWithL_length_le hsw
    rw [List.length_drop] at hlen
    split at h
    · next k hnl =>
      have hkle := indexOfList_le_length _ _ k hnl
      rw [List.length_drop] at hkle
      simp only [Option.some.injEq, Prod.mk.injEq] at h
      obtain ⟨rfl, rfl⟩ := h
      exact ⟨hidx, by omega, by omega⟩
    · next hnl =>
      simp only [Option.some.injEq, Prod.mk.injEq] at h
      obtain ⟨rfl, rfl⟩ := h
      exact ⟨hidx, by omega, by omega⟩

theorem jsReplaceFirst_of_index {hay pat : Str} {i : Nat}
    (hfind : indexOfList pat hay = some i) (repl : Str) :
    jsReplaceFirst hay pat repl = hay.take i ++ repl ++ hay.drop (i + pat.length) := by
  unfold jsReplaceFirst
  rw [hfind]

theorem jsReplaceFirst_section {prBody hdr : Str} {i len : Nat}
    (h : sectionSpan prBody hdr = some (i, len)) (repl : Str) :
    jsReplaceFirst prBody ((prBody.drop i).take len) repl
      = prBody.take i ++ repl ++ prBody.drop (i + len) := by
  obtain ⟨hidx, hhl, hil⟩ := sectionSpan_facts h
  have hsw := indexOfList_some_sw hdr prBody i hidx
  have hmin := indexOfList_some_min hdr prBody i hidx
  have hile := indexOfList_le_length hdr prBody i hidx
  have hSlen : ((prBody.drop i).take len).length = len := by
    rw [List.length_take, List.length_drop]; omega
  have hS_drop : startsWithL ((prBody.drop i).take len) (prBody.drop i) = true :=
    startsWithL_take _ _
  have hdr_S : startsWithL hdr ((prBody.drop i).take len) = true :=
    startsWithL_take_of_le hsw hhl
  have hSmin : ∀ j, j < i → startsWithL ((prBody.drop i).take len) (prBody.drop j) = false := by
    intro j hj
    cases hx : startsWithL ((prBody.drop i).take len) (prBody.drop j) with
    | false => rfl
    | true =>
      have hcontr : startsWithL hdr (prBody.drop j) = true := startsWithL_trans hdr_S hx
      rw [hmin j hj] at hcontr
      cases hcontr
  have hfind : indexOfList ((prBody.drop i).take len) prBody = some i :=
    indexOfList_eq_some _ prBody i hS_drop hSmin
  rw [jsReplaceFirst_of_index hfind repl, hSlen]

theorem addBulletsToSection_of_span {prBody sec : Str} {bullets : List Str} {i len : Nat}
    (hb : bullets ≠ [])
    (h : sectionSpan prBody ("## ".toList ++ sec) = some (i, len)) :
    addBulletsToSection prBody sec bullets
      = prBody.take i ++ insertBullets ((prBody.drop i).take len) bullets
          ++ prBody.drop (i + len) := by
  unfold addBulletsToSection
  rw [if_pos (List.length_pos.mpr hb), h]
  exact jsReplaceFirst_section h _

theorem addBulletsToSection_nil (prBody sec : Str) :
    addBulletsToSection prBody sec [] = prBody := by
  unfold addBulletsToSection
  simp

theorem addNewBulletsToBody_of_includes {prBody featuresSection bugsSection : Str}
    (fb bb : List Str)
    (hF : jsIncludes prBody ("## ".toList ++ featuresSection) = true)
    (hB : jsIncludes prBody ("## ".toList ++ bugsSection) = true) :
    addNewBulletsToBody prBody featuresSection fb bugsSection bb
      = addBulletsToSection (addBulletsToSection prBody featuresSection fb) bugsSection bb := by
  unfold addNewBulletsToBody
  simp only [hF, hB, eq_self_iff_true, if_true]

/-! ## Claim C2 — empty merge -/

/-- C2 counterexample: on the empty document (which contains neither section
header) merging empty bullet lists is *not* the identity — the two section
headers and their placeholder comments are appended, so the claim "for every
document body ... merging an empty sequence of new bullets is the identity"
fails at this concrete input. -/
theorem mergeBullets_empty_not_id_counterexample :
    addNewBulletsToBody [] FEATURES_SECTION [] BUGS_SECTION []
      = ("\n\n## New Features\n<!-- New feature summaries will be added here -->\n\n\n## Bugs / Improvements\n<!-- Bug fixes and improvements will be added here -->\n".toList)
    ∧ addNewBulletsToBody [] FEATURES_SECTION [] BUGS_SECTION [] ≠ [] := by
  decide

/-- C2 (amended): merging empty bullet lists returns the document unchanged
*provided* the document already contains both section headers; otherwise the
missing header (with its placeholder comment) is appended first. -/
theorem mergeBullets_empty_is_id (prBody featuresSection bugsSection : Str)
    (hF : jsIncludes prBody ("## ".toList ++ featuresSection) = true)
    (hB : jsIncludes prBody ("## ".toList ++ bugsSection) = true) :
    addNewBulletsToBody prBody featuresSection [] bugsSection [] = prBody := by
  rw [addNewBulletsToBody_of_includes [] [] hF hB,
    addBulletsToSection_nil, addBulletsToSection_nil]

set_option maxRecDepth 10000 in
/-- Witness for the amended C2 theorem at a concrete document containing
both section headers. -/
theorem mergeBullets_empty_is_id_witness :
    addNewBulletsToBody ("x\n## New Features\n\n## Bugs / Improvements\n".toList)
      FEATURES_SECTION [] BUGS_SECTION []
      = ("x\n## New Features\n\n## Bugs / Improvements\n".toList) :=
  mergeBullets_empty_is_id _ _ _ (by decide) (by decide)

/-! ## Claim C3 — frame property of the merge -/

set_option maxRecDepth 10000 in
/-- C3 counterexample: the input document has a features section and no bugs
section; merging one new feature bullet (and no bug bullets) appends a whole
bugs section with its placeholder after the features section, so the text
outside the span of the target section is *not* preserved verbatim. -/
theorem mergeBullets_frame_counterexample :
    jsIncludes ("## New Features\n- old\n".toList) ("## Bugs / Improvements".toList) = false
    ∧ addNewBulletsToBody ("## New Features\n- old\n".toList) FEATURES_SECTION
        [("- new".toList)] BUGS_SECTION []
      = ("## New Features\n- new\n- old\n\n\n## Bugs / Improvements\n<!-- Bug fixes and improvements will be added here -->\n".toList) := by
  decide

/-- C3 (amended): when the document already contains both fixed section
headers, merging a non-empty bullet list into one section rewrites only that
section's span — the text before the span start and the text from the span
end on are preserved verbatim (in particular every bullet of every other
section is unchanged).  The first conjunct treats a merge into the features
section, the second a merge into the bugs section. -/
theorem mergeBullets_frame (prBody featuresSection bugsSection : Str) (bullets : List Str)
    (hbul : bullets ≠ [])
    (hF : jsIncludes prBody ("## ".toList ++ featuresSection) = true)
    (hB : jsIncludes prBody ("## ".toList ++ bugsSection) = true) :
    (∀ i len, sectionSpan prBody ("## ".toList ++ featuresSection) = some (i, len) →
      addNewBulletsToBody prBody featuresSection bullets bugsSection []
        = prBody.take i ++ insertBullets ((prBody.drop i).take len) bullets
            ++ prBody.drop (i + len))
    ∧ (∀ i len, sectionSpan prBody ("## ".toList ++ bugsSection) = some (i, len) →
      addNewBulletsToBody prBody featuresSection [] bugsSection bullets
        = prBody.take i ++ insertBullets ((prBody.drop i).take len) bullets
            ++ prBody.drop (i + len)) := by
  constructor
  · intro i len hspan
    rw [addNewBulletsToBody_of_includes bullets [] hF hB, addBulletsToSection_nil,
      addBulletsToSection_of_span hbul hspan]
  · intro i len hspan
    rw [addNewBulletsToBody_of_includes [] bullets hF hB, addBulletsToSection_nil,
      addBulletsToSection_of_span hbul hspan]

set_option maxRecDepth 10000 in
/-- Witness for the amended C3 theorem: a concrete merge into the features
section of a document with leading free text and a bugs section; the span of
the features section is `[7, 7 + 22)`. -/
theorem mergeBullets_frame_witness :
    addNewBulletsToBody ("intro\n\n## New Features\n- old\n\n## Bugs / Improvements\n- b\n".toList)
      FEATURES_SECTION [("- n".toList)] BUGS_SECTION []
      = ("intro\n\n## New Features\n- old\n\n## Bugs / Improvements\n- b\n".toList).take 7
        ++ insertBullets ((("intro\n\n## New Features\n- old\n\n## Bugs / Improvements\n- b\n".toList).drop 7).take 22) [("- n".toList)]
        ++ ("intro\n\n## New Features\n- old\n\n## Bugs / Improvements\n- b\n".toList).drop 29 :=
  (mergeBullets_frame _ FEATURES_SECTION BUGS_SECTION _ (by decide) (by decide)
    (by decide)).1 7 22 (by decide)

/-! ## Claim C4 — insertion position of new bullets -/

set_option maxRecDepth 10000 in
/-- C4 counterexample, two failure modes of "inserts them immediately after
the section header (and after any leading placeholder comment), so the new
bullets appear before all existing bullets".  First: with a *short* leading
placeholder comment (`"<!-- a -->"`, matched text of 11 characters) the
insert point is the first newline at offset ≥ 11, which is the end of the
header line — the new bullet is inserted *before* the leading placeholder
comment (bullet at index 16, comment at index 22).  Second: with the first
comment match sitting *below* an existing bullet (matched text of 24
characters, pushing the insert point past that bullet), the new bullet
lands *below* the existing bullet (new bullet at index 46, old bullet at
index 16), refuting "the new bullets appear before all existing bullets". -/
theorem mergeBullets_insertion_counterexample :
    (addNewBulletsToBody ("## New Features\n<!-- a -->\n- old\n\n## Bugs / Improvements\n".toList)
      FEATURES_SECTION [("- new".toList)] BUGS_SECTION []
      = ("## New Features\n- new\n<!-- a -->\n- old\n\n## Bugs / Improvements\n".toList)
    ∧ indexOfList ("- new".toList)
        ("## New Features\n- new\n<!-- a -->\n- old\n\n## Bugs / Improvements\n".toList) = some 16
    ∧ indexOfList ("<!-- a -->".toList)
        ("## New Features\n- new\n<!-- a -->\n- old\n\n## Bugs / Improvements\n".toList) = some 22)
    ∧ (addNewBulletsToBody ("## New Features\n- old\n<!-- aaaaaaaaaaaaaa -->\n".toList)
        FEATURES_SECTION [("- new".toList)] BUGS_SECTION []
      = ("## New Features\n- old\n<!-- aaaaaaaaaaaaaa -->\n- new\n\n\n## Bugs / Improvements\n<!-- Bug fixes and improvements will be added here -->\n".toList)
    ∧ indexOfList ("- old".toList)
        ("## New Features\n- old\n<!-- aaaaaaaaaaaaaa -->\n- new\n\n\n## Bugs / Improvements\n<!-- Bug fixes and improvements will be added here -->\n".toList) = some 16
    ∧ indexOfList ("- new".toList)
        ("## New Features\n- old\n<!-- aaaaaaaaaaaaaa -->\n- new\n\n\n## Bugs / Improvements\n<!-- Bug fixes and improvements will be added here -->\n".toList) = some 46) := by
  decide

theorem indexOfList_newline_append (hdrLine : Str)
    (hno : ∀ c, c ∈ hdrLine → c ≠ '\n') (rest : Str) :
    indexOfList ("\n".toList) (hdrLine ++ '\n' :: rest) = some hdrLine.length := by
  induction hdrLine with
  | nil =>
    show indexOfList ['\n'] ('\n' :: rest) = some 0
    simp [indexOfList, startsWithL]
  | cons c t ih =>
    have hc : c ≠ '\n' := hno c (by simp)
    have ih' := ih (fun x hx => hno x (by simp [hx]))
    simp only [List.cons_append, indexOfList, List.append_eq]
    rw [if_neg, ih']
    · rfl
    · show ¬ startsWithL ['\n'] (c :: (t ++ '\n' :: rest)) = true
      simp only [startsWithL, Bool.and_eq_true, beq_iff_eq]
      rintro ⟨h, -⟩
      exact hc h.symm

set_option maxRecDepth 10000 in
/-- C4 (amended): merging new bullets splices them at a single insert point
inside the target section, preserving all existing section content verbatim
on both sides of that point, with no duplicated header (first conjunct).
The insert point is keyed to the *first* placeholder-comment match anywhere
in the section: when the section has no comment match it lies immediately
after the header line, so the new bullets appear before all existing
bullets (second conjunct); when a comment match of length `L` exists it is
one past the first newline at offset `L` or later (third conjunct) — for
the code's own placeholder written right after the header this is
immediately after that placeholder, but it can fall before a comment
shorter than the header line, or below existing bullets when the comment
sits after them (see the counterexample).  The last two conjuncts are the
claim's concrete scenario — section `New Features` with one existing bullet
receiving two new bullets ends with the new bullets first, the old bullet
last, in a single section — and the same scenario with the standard
placeholder. -/
theorem mergeBullets_most_recent_first :
    (∀ (prBody featuresSection bugsSection : Str) (bullets : List Str) (i len : Nat),
      bullets ≠ [] →
      jsIncludes prBody ("## ".toList ++ featuresSection) = true →
      jsIncludes prBody ("## ".toList ++ bugsSection) = true →
      sectionSpan prBody ("## ".toList ++ featuresSection) = some (i, len) →
      addNewBulletsToBody prBody featuresSection bullets bugsSection []
        = prBody.take i
          ++ ((prBody.drop i).take len).take (insertPoint ((prBody.drop i).take len))
          ++ List.intercalate ("\n".toList) bullets
          ++ "\n".toList
          ++ ((prBody.drop i).take len).drop (insertPoint ((prBody.drop i).take len))
          ++ prBody.drop (i + len))
    ∧ (∀ (hdrLine rest : Str), (∀ c, c ∈ hdrLine → c ≠ '\n') →
        commentMatchLen (hdrLine ++ '\n' :: rest) = none →
        insertPoint (hdrLine ++ '\n' :: rest) = hdrLine.length + 1)
    ∧ (∀ (S : Str) (L q : Nat), commentMatchLen S = some L →
        indexOfList ("\n".toList) (S.drop L) = some q →
        insertPoint S = L + q + 1)
    ∧ addNewBulletsToBody ("## New Features\n- Old feature\n\n## Bugs / Improvements\n- Old bug\n".toList)
        FEATURES_SECTION [("- New A".toList), ("- New B".toList)] BUGS_SECTION []
      = ("## New Features\n- New A\n- New B\n- Old feature\n\n## Bugs / Improvements\n- Old bug\n".toList)
    ∧ addNewBulletsToBody ("## New Features\n<!-- New feature summaries will be added here -->\n\n## Bugs / Improvements\n- Old bug\n".toList)
        FEATURES_SECTION [("- New A".toList), ("- New B".toList)] BUGS_SECTION []
      = ("## New Features\n<!-- New feature summaries will be added here -->\n- New A\n- New B\n\n## Bugs / Improvements\n- Old bug\n".toList) := by
  refine ⟨?_, ?_, ?_, by decide, by decide⟩
  · intro prBody featuresSection bugsSection bullets i len hb hF hB hspan
    rw [addNewBulletsToBody_of_includes bullets [] hF hB, addBulletsToSection_nil,
      addBulletsToSection_of_span hb hspan]
    simp only [insertBullets, if_pos (List.length_pos.mpr hb), List.append_assoc]
  · intro hdrLine rest hno hcm
    unfold insertPoint
    rw [hcm]
    show (match indexOfList ("\n".toList) (hdrLine ++ '\n' :: rest) with
          | some i => i + 1
          | none => 0) = hdrLine.length + 1
    rw [indexOfList_newline_append hdrLine hno rest]
  · intro S L q hcm hidx
    unfold insertPoint
    rw [hcm]
    show (match (indexOfList ("\n".toList) (S.drop L)).map (· + L) with
          | some i => i + 1
          | none => 0) = L + q + 1
    rw [hidx]
    show q + L + 1 = L + q + 1
    omega

set_option maxRecDepth 10000 in
/-- Witness for the amended C4 theorem: the general splice equation at the
claim's concrete scenario (span `[0, 30)` of the features section), and the
no-comment insert point landing right after the 15-character header line. -/
theorem mergeBullets_most_recent_first_witness :
    addNewBulletsToBody ("## New Features\n- Old feature\n\n## Bugs / Improvements\n- Old bug\n".toList)
      FEATURES_SECTION [("- New A".toList), ("- New B".toList)] BUGS_SECTION []
      = (("## New Features\n- Old feature\n\n## Bugs / Improvements\n- Old bug\n".toList).take 0
        ++ ((("## New Features\n- Old feature\n\n## Bugs / Improvements\n- Old bug\n".toList).drop 0).take 30).take
            (insertPoint ((("## New Features\n- Old feature\n\n## Bugs / Improvements\n- Old bug\n".toList).drop 0).take 30))
        ++ List.intercalate ("\n".toList) [("- New A".toList), ("- New B".toList)]
        ++ "\n".toList
        ++ ((("## New Features\n- Old feature\n\n## Bugs / Improvements\n- Old bug\n".toList).drop 0).take 30).drop
            (insertPoint ((("## New Features\n- Old feature\n\n## Bugs / Improvements\n- Old bug\n".toList).drop 0).take 30))
        ++ ("## New Features\n- Old feature\n\n## Bugs / Improvements\n- Old bug\n".toList).drop (0 + 30))
    ∧ insertPoint ("## New Features".toList ++ '\n' :: ("- old\n".toList)) = 16 :=
  ⟨mergeBullets_most_recent_first.1
      ("## New Features\n- Old feature\n\n## Bugs / Improvements\n- Old bug\n".toList)
      FEATURES_SECTION BUGS_SECTION [("- New A".toList), ("- New B".toList)] 0 30
      (by decide) (by decide) (by decide) (by decide),
   mergeBullets_most_recent_first.2.1 ("## New Features".toList) ("- old\n".toList)
      (by decide) (by decide)⟩

/-! ## Claim C1 — semver reset rules of `calculateNewVersion` -/

theorem jsParseInt_nil : jsParseInt [] = .nan := rfl

/-- C1: for every version string whose three dot-separated components parse
to non-negative integers, `calculateNewVersion` follows the semver reset
rules: `major` gives `(major+1).0.0`, `minor` gives `major.(minor+1).0`,
and `patch` gives `major.minor.(patch+1)`. -/
theorem calculateNewVersion_semver (s p0 p1 p2 : Str) (major minor patch : Int)
    (hsplit : s.splitOn '.' = [p0, p1, p2])
    (h0 : jsParseInt p0 = .int major) (h1 : jsParseInt p1 = .int minor)
    (h2 : jsParseInt p2 = .int patch)
    (hn0 : 0 ≤ major) (hn1 : 0 ≤ minor) (hn2 : 0 ≤ patch) :
    calculateNewVersion s .major = (toString (major + 1)).toList ++ ".0.0".toList
    ∧ calculateNewVersion s .minor
      = (toString major).toList ++ ['.'] ++ (toString (minor + 1)).toList ++ ".0".toList
    ∧ calculateNewVersion s .patch
      = (toString major).toList ++ ['.'] ++ (toString minor).toList ++ ['.']
        ++ (toString (patch + 1)).toList := by
  have hne0 : p0 ≠ [] := by rintro rfl; rw [jsParseInt_nil] at h0; cases h0
  have hne1 : p1 ≠ [] := by rintro rfl; rw [jsParseInt_nil] at h1; cases h1
  have hne2 : p2 ≠ [] := by rintro rfl; rw [jsParseInt_nil] at h2; cases h2
  have g0 : getVersionPart [p0, p1, p2] 0 = p0 := by
    unfold getVersionPart; simp [hne0]
  have g1 : getVersionPart [p0, p1, p2] 1 = p1 := by
    unfold getVersionPart; simp [hne1]
  have g2 : getVersionPart [p0, p1, p2] 2 = p2 := by
    unfold getVersionPart; simp [hne2]
  refine ⟨?_, ?_, ?_⟩ <;>
    simp [calculateNewVersion, hsplit, g0, g1, g2, h0, h1, h2, JSNum.addOne, JSNum.render]

/-- Witness for the C1 theorem at the concrete version `1.2.3`. -/
theorem calculateNewVersion_semver_witness :
    calculateNewVersion ("1.2.3".toList) .major = ("2.0.0".toList)
    ∧ calculateNewVersion ("1.2.3".toList) .minor = ("1.3.0".toList)
    ∧ calculateNewVersion ("1.2.3".toList) .patch = ("1.2.4".toList) := by
  have h := calculateNewVersion_semver ("1.2.3".toList) ("1".toList) ("2".toList) ("3".toList)
    1 2 3 (by decide) (by decide) (by decide) (by decide) (by decide) (by decide) (by decide)
  refine ⟨?_, ?_, ?_⟩
  · rw [h.1]; decide
  · rw [h.2.1]; decide
  · rw [h.2.2]; decide

/-! ## Claim C5 — when classification is `Unavailable` -/

instance {ε α : Type} [DecidableEq ε] [DecidableEq α] : DecidableEq (Except ε α)
  | .error e1, .error e2 =>
    if h : e1 = e2 then .isTrue (by rw [h])
    else .isFalse (by intro hc; injection hc; contradiction)
  | .error _, .ok _ => .isFalse (by intro hc; cases hc)
  | .ok _, .error _ => .isFalse (by intro hc; cases hc)
  | .ok a1, .ok a2 =>
    if h : a1 = a2 then .isTrue (by rw [h])
    else .isFalse (by intro hc; injection hc; contradiction)

theorem callOpenAI_disabled {config : RepoConfig} (chat : ChatOutcome)
    (he : (config.ai.bind (·.enabled)).getD false = false) :
    callOpenAI config chat = .ok none := by
  simp only [callOpenAI]
  rw [if_pos (by simp [he])]

theorem callOpenAI_enabled_not_none {config : RepoConfig} {chat : ChatOutcome}
    (he : (config.ai.bind (·.enabled)).getD false = true) :
    callOpenAI config chat ≠ .ok none := by
  simp only [callOpenAI]
  rw [if_neg (by simp [he])]
  split
  · intro h; cases h
  · split
    · intro h; cases h
    · next content =>
      split
      · intro h; cases h
      · next hfal =>
        intro h
        injection h with h'
        subst h'
        exact hfal rfl

/-- C5 (amended): `callOpenAI` yields the `Unavailable` outcome (`null`)
*exactly* when the AI feature is disabled by configuration; when it is
enabled (with the required `openai` fields present), a failed external call
or a response without content raises an error that propagates out of
`handleFeatureMergedToStaging` and fails the event; and whenever
`Unavailable` is returned the handler skips the draft update and completes
the event without failing it. -/
theorem classification_unavailable (config : RepoConfig) (chat : ChatOutcome) :
    (callOpenAI config chat = .ok none
      ↔ (config.ai.bind (·.enabled)).getD false = false)
    ∧ ((config.ai.bind (·.enabled)).getD false = false →
        handleFeatureMergedToStaging config chat = .ok .skippedUpdate)
    ∧ ((config.ai.bind (·.enabled)).getD false = true →
        optStrFalsy ((config.ai.bind (·.openai)).bind (·.model)) = false →
        optRatFalsy ((config.ai.bind (·.openai)).bind (·.temperature)) = false →
        optRatFalsy ((config.ai.bind (·.openai)).bind (·.max_tokens)) = false →
        handleFeatureMergedToStaging config .failure = .error .apiFailure
        ∧ ∀ content, optStrFalsy content = true →
            handleFeatureMergedToStaging config (.success content)
              = .error .noResponse) := by
  refine ⟨?_, ?_, ?_⟩
  · constructor
    · intro hok
      cases he : (config.ai.bind (·.enabled)).getD false
      · rfl
      · exact absurd hok (callOpenAI_enabled_not_none he)
    · intro he
      exact callOpenAI_disabled chat he
  · intro he
    unfold handleFeatureMergedToStaging
    rw [callOpenAI_disabled chat he]
    rfl
  · intro he hm ht hk
    have hcall : ∀ c : ChatOutcome, callOpenAI config c
        = (match c with
           | .failure => .error .apiFailure
           | .success content =>
             if optStrFalsy content then Except.error CallError.noResponse
             else .ok content) := by
      intro c
      simp only [callOpenAI]
      rw [if_neg (by simp [he]), if_neg (by simp [hm, ht, hk])]
    constructor
    · unfold handleFeatureMergedToStaging
      rw [hcall .failure]
    · intro content hc
      unfold handleFeatureMergedToStaging
      rw [hcall (.success content)]
      simp [hc]

/-- C5 counterexample: with the default configuration (AI enabled), a failed
external call and a response without content are thrown *errors* that fail
the handler — not the `Unavailable` outcome — so "Unavailable ... in exactly
three cases: the external call fails, the external call returns no content,
or the AI feature is disabled" is refuted at these concrete inputs. -/
theorem classification_unavailable_counterexample :
    callOpenAI DEFAULT_CONFIG .failure = .error .apiFailure
    ∧ callOpenAI DEFAULT_CONFIG (.success none) = .error .noResponse
    ∧ handleFeatureMergedToStaging DEFAULT_CONFIG .failure = .error .apiFailure := by
  decide

/-- Witness for the amended C5 theorem: with AI disabled the handler skips
the update and completes; with the defaults a failure propagates. -/
theorem classification_unavailable_witness :
    handleFeatureMergedToStaging { ai := some { enabled := some false } }
        ChatOutcome.failure = .ok .skippedUpdate
    ∧ handleFeatureMergedToStaging DEFAULT_CONFIG ChatOutcome.failure
        = .error .apiFailure :=
  ⟨(classification_unavailable { ai := some { enabled := some false } } .failure).2.1
      (by decide),
   ((classification_unavailable DEFAULT_CONFIG .failure).2.2 (by decide) (by decide)
      (by decide) (by decide)).1⟩

/-! ## Claim C6 — release-title parsing and the no-write guarantee -/

set_option maxRecDepth 10000 in
/-- C6: the release-stage title parser accepts titles of the pattern
`<BUMP> Release: <version-with-optional-v-prefix>:` (the parser definition
`parseReleaseTitle` is exactly that pattern, with the `i` flag of the source
regex): `"MINOR Release: v1.2.0: Add login"` parses to bump `MINOR` and
version `1.2.0` after the prefix strip, `"Release something"` fails to
parse, and whenever parsing fails the handler performs no remote write —
no release and no comment are created. -/
theorem releaseTitle_parse (config : RepoConfig) (pr : MergeEvent) (releaseUrl : Str) :
    parseReleaseTitle ("MINOR Release: v1.2.0: Add login".toList)
      = some (("MINOR".toList), ("v1.2.0".toList))
    ∧ stripLeadingV ("v1.2.0".toList) = ("1.2.0".toList)
    ∧ parseReleaseTitle ("Release something".toList) = none
    ∧ (parseReleaseTitle pr.title = none →
        handleStagingMergedToRelease config pr releaseUrl = []) := by
  refine ⟨by decide, by decide, by decide, ?_⟩
  intro hparse
  simp only [handleStagingMergedToRelease]
  split
  · rfl
  · split
    · rfl
    · rw [hparse]

set_option maxRecDepth 10000 in
/-- Witness for the C6 theorem: a merged staging→release event whose title
does not match produces no remote write. -/
theorem releaseTitle_parse_witness :
    handleStagingMergedToRelease DEFAULT_CONFIG
      { number := 5, merged := true, headRef := ("staging".toList),
        baseRef := ("main".toList), title := ("Release something".toList), body := [] }
      ("https://example.test/rel".toList) = [] :=
  (releaseTitle_parse DEFAULT_CONFIG _ _).2.2.2 (by decide)

/-! ## Claim C7 — configuration loading: missing vs malformed -/

/-- C7: a missing configuration file (HTTP 404) yields the built-in
defaults, while an existing file whose content is malformed JSON propagates
an error to the caller — it is not silently defaulted. -/
theorem loadConfig_missing_vs_malformed (jsonParse : Str → Option RepoConfig) (s : Str) :
    loadConfig jsonParse (.apiError (some 404)) = .ok DEFAULT_CONFIG
    ∧ (jsonParse s = none →
        loadConfig jsonParse (.fileContent s) = .error .malformedJson) := by
  constructor
  · rfl
  · intro hp
    simp only [loadConfig, loadConfigTry, hp]
    rfl

/-- Witness for the C7 theorem with a parser that rejects the content. -/
theorem loadConfig_missing_vs_malformed_witness :
    loadConfig (fun _ => none) (.apiError (some 404)) = .ok DEFAULT_CONFIG
    ∧ loadConfig (fun _ => none) (.fileContent ("\x7b".toList)) = .error .malformedJson :=
  ⟨(loadConfig_missing_vs_malformed (fun _ => none) ("\x7b".toList)).1,
   (loadConfig_missing_vs_malformed (fun _ => none) ("\x7b".toList)).2 rfl⟩

/-! ## Claim C8 — draft-locator disambiguation policy -/

theorem find?_eq_some_of_unique {prs : List ListedPR} {pr : ListedPR}
    (hmem : pr ∈ prs) (hdraft : pr.draft = some true)
    (huniq : ∀ q, q ∈ prs → q.draft = some true → q = pr) :
    prs.find? (fun x => x.draft == some true) = some pr := by
  induction prs with
  | nil => cases hmem
  | cons p rest ih =>
    by_cases hp : p.draft = some true
    · have hep : p = pr := huniq p (by simp) hp
      subst hep
      rw [List.find?_cons_of_pos _ (by simp [hp])]
    · rw [List.find?_cons_of_neg _ (by simp [hp])]
      have hpr : pr ∈ rest := by
        cases List.mem_cons.mp hmem with
        | inl h => exact absurd (h ▸ hdraft) hp
        | inr h => exact h
      exact ih hpr (fun q hq => huniq q (List.mem_cons_of_mem _ hq))

/-- C8: among the open staging→release candidates, if exactly one carries
the draft flag then the locator returns it regardless of its position in
listing order, and if no candidate carries the flag it returns the first in
listing order; both facts hold for the qualified-head listing and for the
retry listing. -/
theorem findStagingToReleasePR_nil_left (simple : List ListedPR) :
    findStagingToReleasePR [] simple
      = match simple with
        | [] => none
        | p :: rest =>
          some (((p :: rest).find? (fun pr => pr.draft == some true)).getD p) := by
  rfl

theorem findDraft_policy (prs simplePrs : List ListedPR) :
    (∀ pr, pr ∈ prs → pr.draft = some true →
      (∀ q, q ∈ prs → q.draft = some true → q = pr) → 2 ≤ prs.length →
      findStagingToReleasePR prs simplePrs = some pr
      ∧ findStagingToReleasePR [] prs = some pr)
    ∧ ((∀ q, q ∈ prs → q.draft ≠ some true) → prs ≠ [] →
      findStagingToReleasePR prs simplePrs = prs.head?
      ∧ findStagingToReleasePR [] prs = prs.head?) := by
  constructor
  · intro pr hmem hdraft huniq _hlen
    have hfind := find?_eq_some_of_unique hmem hdraft huniq
    cases prs with
    | nil => cases hmem
    | cons p rest =>
      constructor
      · unfold findStagingToReleasePR
        rw [if_neg (by simp), hfind]
      · rw [findStagingToReleasePR_nil_left]
        show some (((p :: rest).find? (fun pr => pr.draft == some true)).getD p) = some pr
        rw [hfind]
        rfl
  · intro hnone hne
    cases prs with
    | nil => exact absurd rfl hne
    | cons p rest =>
      have hfnone : (p :: rest).find? (fun x => x.draft == some true) = none := by
        rw [List.find?_eq_none]
        intro x hx
        simp [hnone x hx]
      constructor
      · unfold findStagingToReleasePR
        rw [if_neg (by simp), hfnone]
      · rw [findStagingToReleasePR_nil_left]
        show some (((p :: rest).find? (fun pr => pr.draft == some true)).getD p)
          = (p :: rest).head?
        rw [hfnone]
        rfl

/-- Witness for the C8 theorem: two candidates, the second one draft-flagged
(it is returned from either listing position/path). -/
theorem findDraft_policy_witness :
    findStagingToReleasePR
      [{ number := 1, draft := some false, title := [] },
       { number := 2, draft := some true, title := [] }] []
      = some { number := 2, draft := some true, title := [] }
    ∧ findStagingToReleasePR []
        [{ number := 1, draft := some false, title := [] },
         { number := 2, draft := some true, title := [] }]
      = some { number := 2, draft := some true, title := [] } :=
  (findDraft_policy
      [{ number := 1, draft := some false, title := [] },
       { number := 2, draft := some true, title := [] }] []).1
    { number := 2, draft := some true, title := [] }
    (by decide) (by decide) (by decide) (by decide)

/-! ## Claim C9 — format of the titles written to the draft -/

theorem scanMatch_some {f : Str → Option Str} :
    ∀ (s r : Str), scanMatch f s = some r → ∃ s', f s' = some r := by
  intro s
  induction s with
  | nil => intro r h; exact ⟨[], h⟩
  | cons c rest ih =>
    intro r h
    simp only [scanMatch] at h
    split at h
    · next heq => cases h; exact ⟨c :: rest, heq⟩
    · exact ih r h

theorem ciStartsWith_take_map_upper :
    ∀ (W rest : Str), ciStartsWith W rest = true →
      (rest.take W.length).map asciiUpper = W.map asciiUpper := by
  intro W
  induction W with
  | nil => intro rest _; rfl
  | cons w ws ih =>
    intro rest h
    cases rest with
    | nil => simp [ciStartsWith] at h
    | cons r rs =>
      simp only [ciStartsWith, Bool.and_eq_true, beq_iff_eq] at h
      obtain ⟨h1, h2⟩ := h
      simp only [List.length_cons, List.take_succ_cons, List.map_cons]
      rw [h1, ih rs h2]

theorem versionTypeMatchAt_upper {s w : Str} (h : versionTypeMatchAt s = some w) :
    w.map asciiUpper = "MAJOR".toList ∨ w.map asciiUpper = "MINOR".toList
    ∨ w.map asciiUpper = "PATCH".toList := by
  have h5M : ("MAJOR".toList).length = 5 := rfl
  have h5I : ("MINOR".toList).length = 5 := rfl
  have h5P : ("PATCH".toList).length = 5 := rfl
  have hupM : ("MAJOR".toList).map asciiUpper = "MAJOR".toList := by decide
  have hupI : ("MINOR".toList).map asciiUpper = "MINOR".toList := by decide
  have hupP : ("PATCH".toList).map asciiUpper = "PATCH".toList := by decide
  simp only [versionTypeMatchAt] at h
  split at h
  · split at h
    · next hM =>
      cases h
      left
      have hx := ciStartsWith_take_map_upper ("MAJOR".toList) _ hM
      rw [h5M] at hx
      rw [hx, hupM]
    · split at h
      · next hM =>
        cases h
        right; left
        have hx := ciStartsWith_take_map_upper ("MINOR".toList) _ hM
        rw [h5I] at hx
        rw [hx, hupI]
      · split at h
        · next hM =>
          cases h
          right; right
          have hx := ciStartsWith_take_map_upper ("PATCH".toList) _ hM
          rw [h5P] at hx
          rw [hx, hupP]
        · cases h
  · cases h

theorem jsVersionTypeMatch_upper {s w : Str} (h : jsVersionTypeMatch s = some w) :
    w.map asciiUpper = "MAJOR".toList ∨ w.map asciiUpper = "MINOR".toList
    ∨ w.map asciiUpper = "PATCH".toList := by
  unfold jsVersionTypeMatch at h
  obtain ⟨s', hs'⟩ := scanMatch_some s w h
  exact versionTypeMatchAt_upper hs'

theorem oneLine_spec (summary : Str) :
    (if 60 < summary.length then summary.take 57 ++ "...".toList else summary).length ≤ 60
    ∧ ((summary.length ≤ 60
        ∧ (if 60 < summary.length then summary.take 57 ++ "...".toList else summary)
          = summary)
      ∨ (60 < summary.length
        ∧ (if 60 < summary.length then summary.take 57 ++ "...".toList else summary)
          = summary.take 57 ++ "...".toList)) := by
  have h3 : ("...".toList).length = 3 := rfl
  by_cases h : 60 < summary.length
  · rw [if_pos h]
    refine ⟨?_, Or.inr ⟨h, rfl⟩⟩
    rw [List.length_append, List.length_take, h3]
    omega
  · rw [if_neg h]
    exact ⟨by omega, Or.inl ⟨by omega, rfl⟩⟩

/-- C9 (amended): every title written by the *title-update* step
(`updatePRTitle` via `updatePRTitleWithInfo`) has the form
`<BUMP> Release: <prefix><version>: <summary>` where `BUMP` is one of
MAJOR, MINOR, PATCH and the summary is at most 60 characters — a summary
longer than 60 characters is truncated to its first 57 characters plus an
ellipsis.  (The *creation* step additionally writes a placeholder title not
of this form; see the counterexample.) -/
theorem updatePRTitle_format (config : RepoConfig) (currentVersion : Str)
    (response : Option Str) :
    ∃ versionType oneLine : Str,
      updatePRTitle config currentVersion response
        = versionType ++ " Release: ".toList ++ releasePrefixOf config
          ++ calculateNewVersion currentVersion
              (releaseTypeOfString (versionType.map asciiLower))
          ++ ": ".toList ++ oneLine
      ∧ (versionType = "MAJOR".toList ∨ versionType = "MINOR".toList
          ∨ versionType = "PATCH".toList)
      ∧ oneLine.length ≤ 60
      ∧ ∃ summary : Str,
          (summary.length ≤ 60 ∧ oneLine = summary)
          ∨ (60 < summary.length ∧ oneLine = summary.take 57 ++ "...".toList) := by
  by_cases hfr : optStrFalsy response = true
  · unfold updatePRTitle
    rw [if_pos hfr]
    refine ⟨"PATCH".toList, "New features and improvements".toList, rfl,
      Or.inr (Or.inr rfl), by decide, "New features and improvements".toList,
      Or.inl ⟨by decide, rfl⟩⟩
  · have hred : updatePRTitle config currentVersion response
        = updatePRTitleWithInfo config currentVersion
            (match jsVersionTypeMatch (response.getD []) with
             | some w => w.map asciiUpper
             | none => "PATCH".toList)
            (if 60 < (match jsSummaryMatch (response.getD []) with
                      | some g => jsTrim g
                      | none => "New features and improvements".toList).length
             then (match jsSummaryMatch (response.getD []) with
                   | some g => jsTrim g
                   | none => "New features and improvements".toList).take 57 ++ "...".toList
             else (match jsSummaryMatch (response.getD []) with
                   | some g => jsTrim g
                   | none => "New features and improvements".toList)) := by
      unfold updatePRTitle
      rw [if_neg hfr]
    rw [hred]
    cases hvm : jsVersionTypeMatch (response.getD []) with
    | some w =>
      cases hsm : jsSummaryMatch (response.getD []) with
      | some g =>
        exact ⟨w.map asciiUpper,
          (if 60 < (jsTrim g).length then (jsTrim g).take 57 ++ "...".toList else jsTrim g),
          rfl, jsVersionTypeMatch_upper hvm, (oneLine_spec (jsTrim g)).1,
          jsTrim g, (oneLine_spec (jsTrim g)).2⟩
      | none =>
        exact ⟨w.map asciiUpper,
          (if 60 < ("New features and improvements".toList).length
            then ("New features and improvements".toList).take 57 ++ "...".toList
            else "New features and improvements".toList),
          rfl, jsVersionTypeMatch_upper hvm,
          (oneLine_spec ("New features and improvements".toList)).1,
          "New features and improvements".toList,
          (oneLine_spec ("New features and improvements".toList)).2⟩
    | none =>
      cases hsm : jsSummaryMatch (response.getD []) with
      | some g =>
        exact ⟨"PATCH".toList,
          (if 60 < (jsTrim g).length then (jsTrim g).take 57 ++ "...".toList else jsTrim g),
          rfl, Or.inr (Or.inr rfl), (oneLine_spec (jsTrim g)).1,
          jsTrim g, (oneLine_spec (jsTrim g)).2⟩
      | none =>
        exact ⟨"PATCH".toList,
          (if 60 < ("New features and improvements".toList).length
            then ("New features and improvements".toList).take 57 ++ "...".toList
            else "New features and improvements".toList),
          rfl, Or.inr (Or.inr rfl),
          (oneLine_spec ("New features and improvements".toList)).1,
          "New features and improvements".toList,
          (oneLine_spec ("New features and improvements".toList)).2⟩

set_option maxRecDepth 10000 in
/-- C9 counterexample: when no draft exists yet, the engine first writes the
creation title `"Updating v0.0.0"` onto the aggregation draft, and that
title does not have the form `<BUMP> Release: ...` — refuting "every title
the engine writes onto the aggregation draft has the form ...". -/
theorem updatePRTitle_format_counterexample :
    draftCreationTitle DEFAULT_CONFIG ("0.0.0".toList) = ("Updating v0.0.0".toList)
    ∧ draftCreationTitle DEFAULT_CONFIG ("0.0.0".toList)
        ∈ titlesWritten DEFAULT_CONFIG ("0.0.0".toList) false none
    ∧ (∀ b ∈ [("MAJOR".toList), ("MINOR".toList), ("PATCH".toList)],
        startsWithL (b ++ " Release: ".toList)
          (draftCreationTitle DEFAULT_CONFIG ("0.0.0".toList)) = false) := by
  decide

/-! ## Claim C10 — the `config` field never leaves the defaults -/

/-- C10: the service's effective configuration field is invariantly the
built-in `DEFAULT_CONFIG`: calling `loadConfig` leaves the service state
unchanged (it only *returns* the merged configuration — third conjunct),
and `probotHandler` discards that return value, so the configuration read by
the dispatch and by every subsequent operation is the default (second
conjunct) regardless of the repository's configuration file. -/
theorem config_field_invariant (s : ServiceState) (jsonParse : Str → Option RepoConfig)
    (r : GetContentResult) (ev : MergeEvent) :
    (loadConfigCall s jsonParse r).2 = s
    ∧ (∀ out, probotHandler jsonParse r ev = some out → out.2 = DEFAULT_CONFIG)
    ∧ (∀ content custom, jsonParse content = some custom →
        (loadConfigCall s jsonParse (.fileContent content)).1
          = .ok (mergeConfigs DEFAULT_CONFIG custom)) := by
  refine ⟨rfl, ?_, ?_⟩
  · intro out hout
    simp only [probotHandler, loadConfigCall, newPRService] at hout
    split at hout
    · cases hout
    · split at hout
      · cases hout
      · cases hout
        rfl
  · intro content custom hp
    show loadConfig jsonParse (.fileContent content) = .ok (mergeConfigs DEFAULT_CONFIG custom)
    simp only [loadConfig, loadConfigTry, hp]

set_option maxRecDepth 100000 in
/-- Witness for the C10 theorem: on a concrete merged event with a missing
configuration file, the handler dispatches with exactly the default
configuration. -/
theorem config_field_invariant_witness :
    ((Dispatch.featureToStaging, DEFAULT_CONFIG) : Dispatch × RepoConfig).2
      = DEFAULT_CONFIG :=
  (config_field_invariant { config := DEFAULT_CONFIG } (fun _ => none)
      (.apiError (some 404))
      { number := 1, merged := true, headRef := ("feat".toList),
        baseRef := ("staging".toList), title := [], body := [] }).2.1
    (Dispatch.featureToStaging, DEFAULT_CONFIG) (by decide)

end Autorelease
